import Mathlib

/-!
Shallow embedding of the kinetic computation engine of
`Kinetic_Model.py` (class `InteractiveKineticModel`): the three
closed-form models (`inhibition_model`, `pharmacokinetic_model`,
`population_growth_model`), the time-series orchestration
(`calculate_kinetic_data`) and the derived metrics (`update_results`),
together with theorems settling the specification claims about them.

Real-valued arithmetic inside the per-sample model formulas is
embedded in `ℝ` (exact arithmetic).  The time grid, where IEEE
float64 rounding changes observable behaviour (the element count of
`np.arange` and the grid values), is embedded in `ℚ` with an explicit
round-to-nearest-even float64 rounding function `fl64` applied at
every arithmetic step, exactly as Python/numpy evaluate it.  The
behaviour of numpy float64 division at a zero divisor, which IEEE
arithmetic resolves to infinities rather than an exception, is
modelled separately by the type `Fl` below.
-/

namespace KineticModel

/-- Compound selector: `self.selected_compound` takes the two values
`"compound1"` and `"compound2"`. -/
inductive Compound where
  | compound1
  | compound2
deriving DecidableEq

/-- The eight model parameters of `self.parameters`.  `time_points` is
held in a `tk.IntVar`, hence an integer; the others are doubles. -/
structure Params where
  mu_max : ℝ
  Ki_comp1 : ℝ
  Ki_comp2 : ℝ
  K_max : ℝ
  ka : ℝ
  ke : ℝ
  initial_conc : ℝ
  time_points : ℕ

/-- Default parameter values set in `InteractiveKineticModel.__init__`
(and restored by `reset_parameters`). -/
noncomputable def defaultParams : Params :=
  ⟨0.95, 0.12, 10.0, 1e9, 0.1, 0.05, 0.2, 100⟩

/-- `inhibition_model(concentration, mu_max, Ki)` from the source:
`mu_max / (1 + concentration / Ki)`, exact real arithmetic. -/
noncomputable def inhibition_model (concentration mu_max Ki : ℝ) : ℝ :=
  mu_max / (1 + concentration / Ki)

/-- `pharmacokinetic_model(time, initial_conc, ka, ke)` from the source:
`k_total = ka + ke; initial_conc * exp(-k_total * time)`. -/
noncomputable def pharmacokinetic_model (time initial_conc ka ke : ℝ) : ℝ :=
  initial_conc * Real.exp (-(ka + ke) * time)

/-- `population_growth_model(time, mu, K_max, N0)` from the source:
decay branch `N0 * exp(-0.1 * time)` when `mu ≤ 0`, otherwise the
closed-form logistic
`(K_max * N0) / (N0 + (K_max - N0) * exp(-mu * time))`.
The source gives `N0` the default value `1e6`; call sites in this file
pass it explicitly. -/
noncomputable def population_growth_model (time mu K_max N0 : ℝ) : ℝ :=
  if mu ≤ 0 then
    N0 * Real.exp (-0.1 * time)
  else
    (K_max * N0) / (N0 + (K_max - N0) * Real.exp (-mu * time))

/-- `np.log10`, used on the biomass value in `calculate_kinetic_data`. -/
noncomputable def np_log10 (x : ℝ) : ℝ :=
  Real.log x / Real.log 10

/-- IEEE-754 binary64 (float64) rounding of an exact rational:
round to nearest, ties to even, on the 53-bit significand grid
`2 ^ (⌊log2 x⌋ - 52)` of the argument's binade.  Exponent overflow and
subnormals are not modelled: every value arising in this program lies
well inside the normal range, where this is exactly the float64
rounding that Python and numpy apply after each arithmetic
operation. -/
def fl64 (x : ℚ) : ℚ :=
  if x = 0 then 0 else
  if x / 2 ^ (Int.log 2 |x| - 52) - ⌊x / 2 ^ (Int.log 2 |x| - 52)⌋ < 1/2 then
    (⌊x / 2 ^ (Int.log 2 |x| - 52)⌋ : ℚ) * 2 ^ (Int.log 2 |x| - 52)
  else if 1/2 < x / 2 ^ (Int.log 2 |x| - 52) - ⌊x / 2 ^ (Int.log 2 |x| - 52)⌋ then
    ((⌊x / 2 ^ (Int.log 2 |x| - 52)⌋ : ℚ) + 1) * 2 ^ (Int.log 2 |x| - 52)
  else if ⌊x / 2 ^ (Int.log 2 |x| - 52)⌋ % 2 = 0 then
    (⌊x / 2 ^ (Int.log 2 |x| - 52)⌋ : ℚ) * 2 ^ (Int.log 2 |x| - 52)
  else
    ((⌊x / 2 ^ (Int.log 2 |x| - 52)⌋ : ℚ) + 1) * 2 ^ (Int.log 2 |x| - 52)

/-- `np.arange(0, stop, step)` on float64 arguments for a positive
step, as numpy computes it: the element count is `ceil((stop - 0) /
step)` with the quotient evaluated in float64 (its ceiling is then
exact), and element `k` is `0 + k * step` with the multiplication
evaluated in float64. -/
def npArange64 (stop step : ℚ) : List ℚ :=
  (List.range (Int.toNat ⌈fl64 (stop / step)⌉)).map
    (fun k : ℕ => fl64 ((k : ℚ) * step))

/-- Error signals.  `zeroDivisionError` is the exception Python raises
when a division has a zero divisor.  `domainError` is modelled from the
spec: the distinct domain/configuration error signal the specification
asks for; no code in the repository constructs it. -/
inductive KErr where
  | zeroDivisionError
  | domainError
deriving DecidableEq

/-- Python division `a / b`: raises `ZeroDivisionError` when `b = 0`,
otherwise returns the correctly rounded float64 quotient. -/
def pyDiv (a b : ℚ) : Except KErr ℚ :=
  if b = 0 then .error .zeroDivisionError else .ok (fl64 (a / b))

/-- One row of the `results` list built by `calculate_kinetic_data`. -/
structure Sample where
  time : ℚ
  concentration : ℝ
  mu : ℝ
  biomass : ℝ
  raw_biomass : ℝ

/-- The body of the `for time in time_array` loop of
`calculate_kinetic_data`: pharmacokinetic concentration, compound
selection of `Ki`, inhibition response, population growth with the
default `N0 = 1e6`, and the log-transformed biomass. -/
noncomputable def mkSample (p : Params) (c : Compound) (t : ℚ) : Sample :=
  let current_conc := pharmacokinetic_model (t : ℝ) p.initial_conc p.ka p.ke
  let ki_value := match c with
    | .compound1 => p.Ki_comp1
    | .compound2 => p.Ki_comp2
  let current_mu := inhibition_model current_conc p.mu_max ki_value
  let biomass := population_growth_model (t : ℝ) current_mu p.K_max 1e6
  ⟨t, current_conc, current_mu, np_log10 biomass, biomass⟩

/-- `calculate_kinetic_data`: `dt = 8 / time_points` (a Python division
that raises `ZeroDivisionError` when `time_points = 0`), then one
`Sample` per entry of `np.arange(0, 8 + dt, dt)`, where `8 + dt` is a
float64 addition performed before the call. -/
noncomputable def calculate_kinetic_data (p : Params) (c : Compound) :
    Except KErr (List Sample) :=
  match pyDiv 8 (p.time_points : ℚ) with
  | .error e => .error e
  | .ok dt => .ok ((npArange64 (fl64 (8 + dt)) dt).map (mkSample p c))

/-- The scalar results shown by `update_results`. -/
structure DerivedMetrics where
  ed50_comp1 : ℝ
  ed50_comp2 : ℝ
  potencia_rel : ℝ
  ki_ratio : ℝ

/-- `update_results`: ED50 of each compound is its `Ki`, and
`potencia_rel = ki2 / ki1 if ki1 > 0 else 0` (the same value is shown
as `ki_ratio`). -/
noncomputable def update_results (ki1 ki2 : ℝ) : DerivedMetrics :=
  let potencia_rel := if 0 < ki1 then ki2 / ki1 else 0
  ⟨ki1, ki2, potencia_rel, potencia_rel⟩

/-- Extended value type modelling numpy float64 results in exact
arithmetic: a finite value, the two infinities, or NaN.  The call sites
of `inhibition_model` pass numpy float64 concentrations (outputs of
`np.exp` and `np.linspace`), for which a zero divisor yields an
infinity or NaN instead of raising. -/
inductive Fl where
  | num : ℚ → Fl
  | inf : Fl
  | ninf : Fl
  | nan : Fl
deriving DecidableEq

/-- IEEE addition on `Fl` (exact in the finite case). -/
def fadd : Fl → Fl → Fl
  | .nan, _ => .nan
  | _, .nan => .nan
  | .num a, .num b => .num (a + b)
  | .num _, .inf => .inf
  | .inf, .num _ => .inf
  | .inf, .inf => .inf
  | .num _, .ninf => .ninf
  | .ninf, .num _ => .ninf
  | .ninf, .ninf => .ninf
  | .inf, .ninf => .nan
  | .ninf, .inf => .nan

/-- IEEE division on `Fl` (exact in the finite case): a nonzero finite
value divided by zero gives a signed infinity, `0 / 0` gives NaN, and a
finite value divided by an infinity gives `0`. -/
def fdiv : Fl → Fl → Fl
  | .nan, _ => .nan
  | _, .nan => .nan
  | .num a, .num b =>
      if b = 0 then
        if a = 0 then .nan else if 0 < a then .inf else .ninf
      else .num (a / b)
  | .num _, .inf => .num 0
  | .num _, .ninf => .num 0
  | .inf, .num b => if 0 ≤ b then .inf else .ninf
  | .ninf, .num b => if 0 ≤ b then .ninf else .inf
  | .inf, .inf => .nan
  | .inf, .ninf => .nan
  | .ninf, .inf => .nan
  | .ninf, .ninf => .nan

/-- `inhibition_model` under numpy float64 semantics:
`mu_max / (1 + concentration / Ki)` computed in `Fl`. -/
def inhibition_model_np (concentration mu_max Ki : Fl) : Fl :=
  fdiv mu_max (fadd (.num 1) (fdiv concentration Ki))

/-- Claim C1, counterexample: with `Ki = 0`, `muMax = 0.95` and the
numpy float64 concentration `0.2`, `inhibition_model` does return a
numeric result, namely `0`: the division by the zero `Ki` yields `+∞`
under IEEE semantics, `1 + ∞ = ∞`, and `0.95 / ∞ = 0`.  No error is
raised, contradicting the claim that the operation never returns a
numeric result when `Ki = 0`. -/
theorem inhibition_model_np_ki_zero_counterexample :
    inhibition_model_np (.num (1/5)) (.num (19/20)) (.num 0) = .num 0 := by
  norm_num [inhibition_model_np, fdiv, fadd]

/-- Claim C1, amended: the source contains no guard on `Ki`, and its
call sites feed numpy float64 concentrations, so passing `Ki = 0` with
any `muMax` and any positive concentration silently returns the
numeric value `0` (via an intermediate IEEE infinity) instead of
raising a `DomainError`. -/
theorem inhibition_model_np_ki_zero_silent (c m : ℚ) (hc : 0 < c) :
    inhibition_model_np (.num c) (.num m) (.num 0) = .num 0 := by
  have h1 : fdiv (Fl.num c) (Fl.num 0) = Fl.inf := by
    norm_num [fdiv, hc.ne', hc]
  show fdiv (Fl.num m) (fadd (Fl.num 1) (fdiv (Fl.num c) (Fl.num 0))) = Fl.num 0
  rw [h1]
  rfl

/-- Witness for `inhibition_model_np_ki_zero_silent` at
`concentration = 0.2`, `muMax = 0.95`. -/
theorem inhibition_model_np_ki_zero_silent_witness :
    inhibition_model_np (.num (1/5)) (.num (19/20)) (.num 0) = .num 0 :=
  inhibition_model_np_ki_zero_silent (1/5) (19/20) (by norm_num)

/-- Claim C7: for `Ki_comp1 > 0`, `update_results` reports
`ed50_comp1 = Ki_comp1`, `ed50_comp2 = Ki_comp2` and
`potencia_rel = Ki_comp2 / Ki_comp1`; at the defaults
`Ki_comp1 = 0.12`, `Ki_comp2 = 10` the relative potency is `250 / 3`,
within `0.01` of `83.33`. -/
theorem update_results_metrics :
    (∀ ki1 ki2 : ℝ, 0 < ki1 →
      (update_results ki1 ki2).ed50_comp1 = ki1 ∧
      (update_results ki1 ki2).ed50_comp2 = ki2 ∧
      (update_results ki1 ki2).potencia_rel = ki2 / ki1) ∧
    (update_results 0.12 10).potencia_rel = 250 / 3 ∧
    |(update_results 0.12 10).potencia_rel - 83.33| < 0.01 := by
  refine ⟨fun ki1 ki2 h => ⟨rfl, rfl, ?_⟩, ?_, ?_⟩
  · simp [update_results, if_pos h]
  · norm_num [update_results]
  · rw [abs_lt]
    norm_num [update_results]

/-- Witness for `update_results_metrics` at the default `Ki` values. -/
theorem update_results_metrics_witness :
    (update_results 0.12 10).potencia_rel = 10 / 0.12 :=
  (update_results_metrics.1 0.12 10 (by norm_num)).2.2

/-- Claim C8: with `Ki_comp1 = 0` the relative potency is the explicit
sentinel `0` produced by the source's guard `if ki1 > 0 else 0` — the
division is never evaluated — and the sentinel is distinct from every
value the computation produces on in-range inputs (`Ki > 0` for both
compounds), which are strictly positive. -/
theorem update_results_sentinel :
    (∀ ki2 : ℝ, (update_results 0 ki2).potencia_rel = 0) ∧
    (∀ ki1 ki2 : ℝ, 0 < ki1 → 0 < ki2 →
      0 < (update_results ki1 ki2).potencia_rel) := by
  constructor
  · intro ki2
    simp [update_results]
  · intro ki1 ki2 h1 h2
    simp only [update_results, if_pos h1]
    exact div_pos h2 h1

/-- Witness for `update_results_sentinel`: the sentinel at
`Ki_comp1 = 0, Ki_comp2 = 10` and the positive output at the default
`Ki` values. -/
theorem update_results_sentinel_witness :
    (update_results 0 10).potencia_rel = 0 ∧
    0 < (update_results 0.12 10).potencia_rel :=
  ⟨update_results_sentinel.1 10,
   update_results_sentinel.2 0.12 10 (by norm_num) (by norm_num)⟩

/-- Claim C9: `calculate_kinetic_data` is deterministic — two calls on
equal parameter sets and equal compound selections return equal sample
sequences.  In this embedding the computation is a pure function of its
inputs, mirroring the source, which reads only the passed parameter
values and shares no mutable state across calls. -/
theorem calculate_kinetic_data_deterministic
    (p₁ p₂ : Params) (c₁ c₂ : Compound) (hp : p₁ = p₂) (hc : c₁ = c₂) :
    calculate_kinetic_data p₁ c₁ = calculate_kinetic_data p₂ c₂ := by
  rw [hp, hc]

/-- Witness for `calculate_kinetic_data_deterministic` at the default
parameters and compound 1. -/
theorem calculate_kinetic_data_deterministic_witness :
    calculate_kinetic_data defaultParams .compound1 =
      calculate_kinetic_data defaultParams .compound1 :=
  calculate_kinetic_data_deterministic defaultParams defaultParams
    .compound1 .compound1 rfl rfl

/-- Claim C5, counterexample: the claim quantifies over every `muMax`,
but at `muMax = 0` (with `Ki = 1 > 0`) the response is the constant `0`
function, so it is not strictly decreasing from concentration `0` to
concentration `1`. -/
theorem inhibition_model_not_strict_anti_counterexample :
    (0:ℝ) < 1 ∧ (0:ℝ) ≤ 0 ∧ (0:ℝ) < 1 ∧ (1:ℝ) ≤ 1 ∧
    inhibition_model 0 0 1 = 0 ∧ inhibition_model 1 0 1 = 0 ∧
    ¬ inhibition_model 1 0 1 < inhibition_model 0 0 1 := by
  norm_num [inhibition_model]

/-- Claim C5, amended with `0 < muMax` (the valid range of `mu_max`):
for every `muMax > 0` and `Ki > 0`, `inhibition_model` equals `muMax`
at concentration `0` and is strictly decreasing in concentration over
`[0, 1]`. -/
theorem inhibition_model_props (mu_max Ki : ℝ) (hmu : 0 < mu_max)
    (hKi : 0 < Ki) :
    inhibition_model 0 mu_max Ki = mu_max ∧
    ∀ c₁ c₂ : ℝ, 0 ≤ c₁ → c₁ < c₂ → c₂ ≤ 1 →
      inhibition_model c₂ mu_max Ki < inhibition_model c₁ mu_max Ki := by
  constructor
  · simp [inhibition_model]
  · intro c₁ c₂ h0 h12 h1
    have hd₁ : 0 < 1 + c₁ / Ki := by positivity
    have hdd : 1 + c₁ / Ki < 1 + c₂ / Ki := by
      have := (div_lt_div_iff_of_pos_right hKi).mpr h12
      linarith
    exact (div_lt_div_iff_of_pos_left hmu (lt_trans hd₁ hdd) hd₁).mpr hdd

/-- Witness for `inhibition_model_props` at `muMax = 0.95`, `Ki = 0.12`
(the defaults), comparing concentrations `0` and `1`. -/
theorem inhibition_model_props_witness :
    inhibition_model 0 0.95 0.12 = 0.95 ∧
    inhibition_model 1 0.95 0.12 < inhibition_model 0 0.95 0.12 := by
  obtain ⟨h0, hmono⟩ := inhibition_model_props 0.95 0.12 (by norm_num) (by norm_num)
  exact ⟨h0, hmono 0 1 le_rfl (by norm_num) le_rfl⟩

/-- Claim C6, counterexample: the claim quantifies over every
`initialConcentration`, but at `c0 = 0` (with `ka = ke = 1`, so
`ka + ke > 0`) the concentration is constantly `0`, so it is not
strictly decreasing in time. -/
theorem pharmacokinetic_model_not_strict_anti_counterexample :
    (0:ℝ) < 1 + 1 ∧
    pharmacokinetic_model 0 0 1 1 = 0 ∧ pharmacokinetic_model 1 0 1 1 = 0 ∧
    ¬ pharmacokinetic_model 1 0 1 1 < pharmacokinetic_model 0 0 1 1 := by
  norm_num [pharmacokinetic_model]

/-- Claim C6, amended with `0 < c0` for the strict-decrease part: the
decay is the stated exponential, equals `c0` at time `0`, and for
`c0 > 0` and `ka + ke > 0` is strictly decreasing in time. -/
theorem pharmacokinetic_model_props (c0 ka ke : ℝ) :
    (∀ t : ℝ, pharmacokinetic_model t c0 ka ke =
      c0 * Real.exp (-(ka + ke) * t)) ∧
    pharmacokinetic_model 0 c0 ka ke = c0 ∧
    (0 < c0 → 0 < ka + ke → ∀ t₁ t₂ : ℝ, t₁ < t₂ →
      pharmacokinetic_model t₂ c0 ka ke < pharmacokinetic_model t₁ c0 ka ke) := by
  refine ⟨fun t => rfl, by simp [pharmacokinetic_model], ?_⟩
  intro hc hk t₁ t₂ h12
  have hexp : Real.exp (-(ka + ke) * t₂) < Real.exp (-(ka + ke) * t₁) := by
    apply Real.exp_lt_exp.mpr
    nlinarith
  exact mul_lt_mul_of_pos_left hexp hc

/-- Witness for `pharmacokinetic_model_props` at the default values
`c0 = 0.2`, `ka = 0.1`, `ke = 0.05`, comparing times `0` and `1`. -/
theorem pharmacokinetic_model_props_witness :
    pharmacokinetic_model 0 0.2 0.1 0.05 = 0.2 ∧
    pharmacokinetic_model 1 0.2 0.1 0.05 < pharmacokinetic_model 0 0.2 0.1 0.05 := by
  obtain ⟨_, h0, hmono⟩ := pharmacokinetic_model_props 0.2 0.1 0.05
  exact ⟨h0, hmono (by norm_num) (by norm_num) 0 1 (by norm_num)⟩

/-- The logistic denominator is positive for positive parameters and
nonnegative time, in both the `N0 ≤ K` and the `N0 > K` case. -/
theorem population_growth_denom_pos (mu K N0 t : ℝ) (hmu : 0 < mu)
    (hK : 0 < K) (hN : 0 < N0) (ht : 0 ≤ t) :
    0 < N0 + (K - N0) * Real.exp (-mu * t) := by
  have he : 0 < Real.exp (-mu * t) := Real.exp_pos _
  have he1 : Real.exp (-mu * t) ≤ 1 := by
    apply Real.exp_le_one_iff.mpr
    nlinarith
  nlinarith [mul_nonneg hN.le (by linarith : (0:ℝ) ≤ 1 - Real.exp (-mu * t)),
    mul_pos hK he]

/-- Claim C4, counterexample: the claim asserts
`populationGrowth(t, mu, K, N0) < K` for every `K > 0`, `N0 > 0`,
`t ≥ 0` when `mu > 0`, but at `mu = 1`, `K = 1`, `N0 = 2`, `t = 0` the
result is `2`, which is not below the carrying capacity `1` (the bound
requires `N0 < K`, which the claim does not assume). -/
theorem population_growth_model_not_lt_K_counterexample :
    (0:ℝ) < 1 ∧ (0:ℝ) < 2 ∧ (0:ℝ) ≤ 0 ∧ (0:ℝ) < 1 ∧
    population_growth_model 0 1 1 2 = 2 ∧
    ¬ population_growth_model 0 1 1 2 < 1 := by
  norm_num [population_growth_model]

/-- Claim C4, amended: for `K > 0`, `N0 > 0`, `t ≥ 0` the model equals
`N0` at time `0` in both branches and is always positive; for `mu > 0`
the result stays below `K` provided additionally `N0 < K`, and tends to
`K` as time tends to infinity. -/
theorem population_growth_model_props (mu K N0 t : ℝ) (hK : 0 < K)
    (hN : 0 < N0) (ht : 0 ≤ t) :
    population_growth_model 0 mu K N0 = N0 ∧
    0 < population_growth_model t mu K N0 ∧
    (0 < mu → N0 < K → population_growth_model t mu K N0 < K) ∧
    (0 < mu → Filter.Tendsto (fun s => population_growth_model s mu K N0)
      Filter.atTop (nhds K)) := by
  refine ⟨?_, ?_, ?_, ?_⟩
  · by_cases h : mu ≤ 0
    · simp [population_growth_model, h]
    · rw [population_growth_model, if_neg h]
      rw [show N0 + (K - N0) * Real.exp (-mu * 0) = K by
        simp [Real.exp_zero]]
      field_simp
  · by_cases h : mu ≤ 0
    · rw [population_growth_model, if_pos h]
      positivity
    · rw [population_growth_model, if_neg h]
      exact div_pos (mul_pos hK hN)
        (population_growth_denom_pos mu K N0 t (not_le.mp h) hK hN ht)
  · intro hmu hNK
    have hd := population_growth_denom_pos mu K N0 t hmu hK hN ht
    rw [population_growth_model, if_neg (not_le.mpr hmu), div_lt_iff₀ hd]
    nlinarith [mul_pos (mul_pos hK (sub_pos.mpr hNK)) (Real.exp_pos (-mu * t))]
  · intro hmu
    have hfun : (fun s : ℝ => population_growth_model s mu K N0) =
        fun s => (K * N0) / (N0 + (K - N0) * Real.exp (-mu * s)) :=
      funext fun s => by rw [population_growth_model, if_neg (not_le.mpr hmu)]
    rw [hfun]
    have hexp : Filter.Tendsto (fun s : ℝ => Real.exp (-mu * s))
        Filter.atTop (nhds 0) := by
      have h1 : Filter.Tendsto (fun s : ℝ => mu * s)
          Filter.atTop Filter.atTop :=
        Filter.Tendsto.const_mul_atTop hmu Filter.tendsto_id
      have h2 : Filter.Tendsto (fun s : ℝ => Real.exp (-(mu * s)))
          Filter.atTop (nhds 0) :=
        Real.tendsto_exp_neg_atTop_nhds_zero.comp h1
      exact Filter.Tendsto.congr (fun s => by rw [neg_mul]) h2
    have hden : Filter.Tendsto
        (fun s : ℝ => N0 + (K - N0) * Real.exp (-mu * s))
        Filter.atTop (nhds N0) := by
      have h3 : Filter.Tendsto
          (fun s : ℝ => N0 + (K - N0) * Real.exp (-mu * s))
          Filter.atTop (nhds (N0 + (K - N0) * 0)) :=
        tendsto_const_nhds.add (hexp.const_mul (K - N0))
      simpa using h3
    have hdiv : Filter.Tendsto
        (fun s : ℝ => K * N0 / (N0 + (K - N0) * Real.exp (-mu * s)))
        Filter.atTop (nhds (K * N0 / N0)) :=
      Filter.Tendsto.div tendsto_const_nhds hden hN.ne'
    rw [show K * N0 / N0 = K by field_simp] at hdiv
    exact hdiv

/-- Witness for `population_growth_model_props` at `mu = 1`, `K = 2`,
`N0 = 1`, `t = 0`: value `N0` at time zero and strictly below the
carrying capacity. -/
theorem population_growth_model_props_witness :
    population_growth_model 0 1 2 1 = 1 ∧
    population_growth_model 0 1 2 1 < 2 := by
  obtain ⟨h0, _, hlt, _⟩ :=
    population_growth_model_props 1 2 1 0 (by norm_num) (by norm_num) le_rfl
  exact ⟨h0, hlt (by norm_num) (by norm_num)⟩

/-- Claim C10: in the growth branch (`mu > 0`), with
`0 < N0 < K_max`, the population is strictly increasing in time on
`t ≥ 0` — the logistic denominator strictly decreases, so the quotient
strictly increases. -/
theorem population_growth_model_strict_mono (mu K N0 t₁ t₂ : ℝ)
    (hmu : 0 < mu) (hN : 0 < N0) (hNK : N0 < K) (_ht₁ : 0 ≤ t₁)
    (h12 : t₁ < t₂) :
    population_growth_model t₁ mu K N0 < population_growth_model t₂ mu K N0 := by
  have hK : 0 < K := lt_trans hN hNK
  rw [population_growth_model, if_neg (not_le.mpr hmu),
    population_growth_model, if_neg (not_le.mpr hmu)]
  have hd₂ : 0 < N0 + (K - N0) * Real.exp (-mu * t₂) :=
    add_pos hN (mul_pos (sub_pos.mpr hNK) (Real.exp_pos _))
  have hdd : N0 + (K - N0) * Real.exp (-mu * t₂) <
      N0 + (K - N0) * Real.exp (-mu * t₁) := by
    have hexp : Real.exp (-mu * t₂) < Real.exp (-mu * t₁) := by
      apply Real.exp_lt_exp.mpr
      nlinarith
    have := mul_lt_mul_of_pos_left hexp (sub_pos.mpr hNK)
    linarith
  exact (div_lt_div_iff_of_pos_left (mul_pos hK hN)
    (lt_trans hd₂ hdd) hd₂).mpr hdd

/-- Witness for `population_growth_model_strict_mono` at `mu = 1`,
`K = 2`, `N0 = 1`, between times `0` and `1`. -/
theorem population_growth_model_strict_mono_witness :
    population_growth_model 0 1 2 1 < population_growth_model 1 1 2 1 :=
  population_growth_model_strict_mono 1 2 1 0 1 (by norm_num) (by norm_num)
    (by norm_num) le_rfl (by norm_num)

/-- Claim C3, counterexample: at `time_points = 0` (other parameters at
their defaults) `calculate_kinetic_data` hits the unguarded division
`8 / time_points` and fails with a plain `ZeroDivisionError`; it does
not surface the distinct domain/configuration error signal that the
claim asserts. -/
theorem calculate_kinetic_data_time_points_zero_counterexample :
    calculate_kinetic_data ⟨0.95, 0.12, 10.0, 1e9, 0.1, 0.05, 0.2, 0⟩
        .compound1 = .error .zeroDivisionError ∧
    calculate_kinetic_data ⟨0.95, 0.12, 10.0, 1e9, 0.1, 0.05, 0.2, 0⟩
        .compound1 ≠ .error .domainError := by
  constructor
  · simp [calculate_kinetic_data, pyDiv]
  · simp [calculate_kinetic_data, pyDiv]

/-- Claim C3, amended: the division `8 / time_points` is not guarded —
with `time_points = 0` the computation stops with the
`ZeroDivisionError` that Python's division raises, and no distinct
configuration/domain error signal is produced. -/
theorem calculate_kinetic_data_time_points_zero_unguarded
    (p : Params) (c : Compound) (h : p.time_points = 0) :
    calculate_kinetic_data p c = .error .zeroDivisionError := by
  simp [calculate_kinetic_data, pyDiv, h]

/-- Witness for `calculate_kinetic_data_time_points_zero_unguarded`
with concrete parameters whose `time_points` is `0`. -/
theorem calculate_kinetic_data_time_points_zero_unguarded_witness :
    calculate_kinetic_data ⟨0.5, 0.1, 1.0, 1e9, 0.1, 0.05, 0.2, 0⟩
      .compound2 = .error .zeroDivisionError :=
  calculate_kinetic_data_time_points_zero_unguarded
    ⟨0.5, 0.1, 1.0, 1e9, 0.1, 0.05, 0.2, 0⟩ .compound2 rfl

/-- `Int.log 2` is characterised by the binade bounds. -/
theorem int_log_two_eq (x : ℚ) (e : ℤ) (hl : (2:ℚ)^e ≤ x) (hu : x < 2^(e+1)) :
    Int.log 2 x = e := by
  have hx : 0 < x := lt_of_lt_of_le (by positivity) hl
  have h1 : e ≤ Int.log 2 x :=
    (Int.zpow_le_iff_le_log (by norm_num) hx).mp (by exact_mod_cast hl)
  have h2 : Int.log 2 x < e + 1 :=
    (Int.lt_zpow_iff_log_lt (by norm_num) hx).mp (by exact_mod_cast hu)
  omega

/-- The significand of `x` on the grid `2^(e-52)` is `n` when `x` lies
in `[n, n+1)` units of the grid. -/
theorem fl64_floor_aux (x : ℚ) (e n : ℤ) (_hx : 0 < x)
    (hn : (n:ℚ) * 2^(e-52) ≤ x) (hn2 : x < ((n:ℚ)+1) * 2^(e-52)) :
    ⌊x / 2^(e-52)⌋ = n := by
  have hupos : (0:ℚ) < 2^(e-52) := by positivity
  rw [Int.floor_eq_iff]
  constructor
  · rw [le_div_iff₀ hupos]
    exact hn
  · rw [div_lt_iff₀ hupos]
    linarith

/-- Evaluation rule for `fl64`, round-down case: if `x` is within the
binade `[2^e, 2^(e+1))` and less than half a grid unit above `n` grid
units, it rounds down to `n * 2^(e-52)`. -/
theorem fl64_eq_down (x : ℚ) (e n : ℤ) (hl : (2:ℚ)^e ≤ x) (hu : x < 2^(e+1))
    (hn : (n:ℚ) * 2^(e-52) ≤ x)
    (hr : x - (n:ℚ) * 2^(e-52) < (1/2) * 2^(e-52)) :
    fl64 x = (n:ℚ) * 2^(e-52) := by
  have hx : 0 < x := lt_of_lt_of_le (by positivity) hl
  have hupos : (0:ℚ) < 2^(e-52) := by positivity
  have hax : |x| = x := abs_of_pos hx
  have hlog : Int.log 2 |x| = e := by
    rw [hax]
    exact int_log_two_eq x e hl hu
  have hn2 : x < ((n:ℚ)+1) * 2^(e-52) := by nlinarith
  have hfl : ⌊x / 2^(e-52)⌋ = n := fl64_floor_aux x e n hx hn hn2
  rw [fl64, if_neg hx.ne', hlog, hfl, if_pos]
  rw [sub_lt_iff_lt_add, div_lt_iff₀ hupos]
  nlinarith

/-- Evaluation rule for `fl64`, round-up case: if `x` is within the
binade `[2^e, 2^(e+1))`, between `n` and `n+1` grid units and more than
half a unit above `n`, it rounds up to `(n+1) * 2^(e-52)`. -/
theorem fl64_eq_up (x : ℚ) (e n : ℤ) (hl : (2:ℚ)^e ≤ x) (hu : x < 2^(e+1))
    (hn : (n:ℚ) * 2^(e-52) ≤ x) (hn2 : x < ((n:ℚ)+1) * 2^(e-52))
    (hr : (1/2) * 2^(e-52) < x - (n:ℚ) * 2^(e-52)) :
    fl64 x = ((n:ℚ)+1) * 2^(e-52) := by
  have hx : 0 < x := lt_of_lt_of_le (by positivity) hl
  have hupos : (0:ℚ) < 2^(e-52) := by positivity
  have hax : |x| = x := abs_of_pos hx
  have hlog : Int.log 2 |x| = e := by
    rw [hax]
    exact int_log_two_eq x e hl hu
  have hfl : ⌊x / 2^(e-52)⌋ = n := fl64_floor_aux x e n hx hn hn2
  rw [fl64, if_neg hx.ne', hlog, hfl, if_neg, if_pos]
  · rw [lt_sub_iff_add_lt, lt_div_iff₀ hupos]
    nlinarith
  · rw [not_lt, le_sub_iff_add_le, le_div_iff₀ hupos]
    nlinarith

/-- Evaluation rule for `fl64`, tie case with odd significand: exactly
half a grid unit above an odd `n` rounds up to the even `n+1`. -/
theorem fl64_eq_tie_odd (x : ℚ) (e n : ℤ) (hl : (2:ℚ)^e ≤ x) (hu : x < 2^(e+1))
    (hr : x - (n:ℚ) * 2^(e-52) = (1/2) * 2^(e-52)) (hodd : n % 2 = 1) :
    fl64 x = ((n:ℚ)+1) * 2^(e-52) := by
  have hx : 0 < x := lt_of_lt_of_le (by positivity) hl
  have hupos : (0:ℚ) < 2^(e-52) := by positivity
  have hax : |x| = x := abs_of_pos hx
  have hlog : Int.log 2 |x| = e := by
    rw [hax]
    exact int_log_two_eq x e hl hu
  have hn : (n:ℚ) * 2^(e-52) ≤ x := by nlinarith
  have hn2 : x < ((n:ℚ)+1) * 2^(e-52) := by nlinarith
  have hfl : ⌊x / 2^(e-52)⌋ = n := fl64_floor_aux x e n hx hn hn2
  have hhalf : x / 2^(e-52) - (n:ℚ) = 1/2 := by
    field_simp
    linarith
  rw [fl64, if_neg hx.ne', hlog, hfl, hhalf, if_neg (by norm_num),
    if_neg (by norm_num), if_neg (by omega)]

/-- Rounding is faithful to within half a grid unit of the argument's
binade. -/
theorem fl64_error (x : ℚ) (hx : 0 < x) :
    |fl64 x - x| ≤ (1/2) * 2 ^ (Int.log 2 x - 52) := by
  have hax : |x| = x := abs_of_pos hx
  have hupos : (0:ℚ) < 2 ^ (Int.log 2 x - 52) := by positivity
  have hfl_le : (⌊x / 2 ^ (Int.log 2 x - 52)⌋ : ℚ) ≤ x / 2 ^ (Int.log 2 x - 52) :=
    Int.floor_le _
  have hfl_lt : x / 2 ^ (Int.log 2 x - 52) < ⌊x / 2 ^ (Int.log 2 x - 52)⌋ + 1 :=
    Int.lt_floor_add_one _
  have key : ∀ w : ℚ, |w - x / 2 ^ (Int.log 2 x - 52)| ≤ 1/2 →
      |w * 2 ^ (Int.log 2 x - 52) - x| ≤ (1/2) * 2 ^ (Int.log 2 x - 52) := by
    intro w hw
    have hrw : w * 2 ^ (Int.log 2 x - 52) - x =
        (w - x / 2 ^ (Int.log 2 x - 52)) * 2 ^ (Int.log 2 x - 52) := by
      field_simp
    rw [hrw, abs_mul, abs_of_pos hupos]
    exact mul_le_mul_of_nonneg_right hw hupos.le
  rw [fl64, if_neg hx.ne', hax]
  by_cases h1 : x / 2 ^ (Int.log 2 x - 52) - ⌊x / 2 ^ (Int.log 2 x - 52)⌋ < 1/2
  · rw [if_pos h1]
    apply key
    rw [abs_le]
    constructor <;> linarith
  · rw [if_neg h1]
    by_cases h2 : 1/2 < x / 2 ^ (Int.log 2 x - 52) - ⌊x / 2 ^ (Int.log 2 x - 52)⌋
    · rw [if_pos h2]
      apply key
      rw [abs_le]
      constructor <;> linarith
    · rw [if_neg h2]
      by_cases h3 : ⌊x / 2 ^ (Int.log 2 x - 52)⌋ % 2 = 0
      · rw [if_pos h3]
        apply key
        rw [abs_le]
        constructor <;> linarith
      · rw [if_neg h3]
        apply key
        rw [abs_le]
        constructor <;> linarith

/-- Rounding error bound from any upper binade bound `x < 2^(b+1)`. -/
theorem fl64_error_le (x : ℚ) (b : ℤ) (hx : 0 < x) (hb : x < 2^(b+1)) :
    |fl64 x - x| ≤ (1/2) * 2 ^ (b - 52) := by
  refine le_trans (fl64_error x hx) ?_
  have hlb : Int.log 2 x ≤ b := by
    have := (Int.lt_zpow_iff_log_lt (b := 2) (by norm_num) hx).mp (by exact_mod_cast hb)
    omega
  have hz : (2:ℚ) ^ (Int.log 2 x - 52) ≤ 2 ^ (b - 52) := by
    apply zpow_le_zpow_right₀ (by norm_num)
    omega
  linarith

/-- The rounded multiples of the float64 step `fl64(8/100)` are
strictly increasing over the first 101 indices: consecutive exact
multiples differ by the step (about `0.08`), far more than twice the
largest rounding error (at most `2^-50`, since all these multiples lie
below `2^4`). -/
theorem fl64_dt100_mono (i j : ℕ) (hij : i < j) (hj : j ≤ 100) :
    fl64 ((i:ℚ) * (5764607523034235/72057594037927936)) <
      fl64 ((j:ℚ) * (5764607523034235/72057594037927936)) := by
  have hdt : (0:ℚ) < 5764607523034235/72057594037927936 := by norm_num
  have hjq : (j:ℚ) ≤ 100 := by exact_mod_cast hj
  have hj1 : (1:ℚ) ≤ (j:ℚ) := by exact_mod_cast (by omega : 1 ≤ j)
  have hjlt : (j:ℚ) * (5764607523034235/72057594037927936) < 2^((3:ℤ)+1) := by
    have h1 : (j:ℚ) * (5764607523034235/72057594037927936) ≤
        100 * (5764607523034235/72057594037927936) :=
      mul_le_mul_of_nonneg_right hjq hdt.le
    have h2 : (100:ℚ) * (5764607523034235/72057594037927936) < 2^((3:ℤ)+1) := by
      norm_num
    linarith
  have hjerr := fl64_error_le ((j:ℚ) * (5764607523034235/72057594037927936)) 3
    (by positivity) hjlt
  obtain ⟨hjlo, hjhi⟩ := abs_le.mp hjerr
  rcases Nat.eq_zero_or_pos i with h0 | hpos
  · subst h0
    rw [show (((0:ℕ):ℚ)) * (5764607523034235/72057594037927936) = 0 by norm_num,
      show fl64 0 = 0 by norm_num [fl64]]
    have hstep : (5764607523034235:ℚ)/72057594037927936 ≤
        (j:ℚ) * (5764607523034235/72057594037927936) := by
      nlinarith
    have hnum : (1/2:ℚ) * 2^((3:ℤ)-52) < 5764607523034235/72057594037927936 := by
      norm_num
    linarith
  · have hilt : (i:ℚ) * (5764607523034235/72057594037927936) < 2^((3:ℤ)+1) := by
      have h1 : (i:ℚ) ≤ 100 := by exact_mod_cast (by omega : i ≤ 100)
      have h2 : (i:ℚ) * (5764607523034235/72057594037927936) ≤
          100 * (5764607523034235/72057594037927936) :=
        mul_le_mul_of_nonneg_right h1 hdt.le
      have h3 : (100:ℚ) * (5764607523034235/72057594037927936) < 2^((3:ℤ)+1) := by
        norm_num
      linarith
    have hipos : (0:ℚ) < (i:ℚ) := by exact_mod_cast hpos
    have hierr := fl64_error_le ((i:ℚ) * (5764607523034235/72057594037927936)) 3
      (by positivity) hilt
    obtain ⟨hilo, hihi⟩ := abs_le.mp hierr
    have hij1 : (i:ℚ) + 1 ≤ (j:ℚ) := by exact_mod_cast hij
    have hstep : (i:ℚ) * (5764607523034235/72057594037927936) +
        5764607523034235/72057594037927936 ≤
        (j:ℚ) * (5764607523034235/72057594037927936) := by
      nlinarith
    have hnum : (2:ℚ) * ((1/2) * 2^((3:ℤ)-52)) < 5764607523034235/72057594037927936 := by
      norm_num
    linarith

/-- Claim C2, counterexample: at `time_points = 6` (other parameters at
their defaults) the float64 evaluation of `np.arange(0, 8 + dt, dt)`
with `dt = 8/6` produces `8` samples, not `⌊8 / step⌋ + 1 = 7`: the
float64 quotient `(8 + dt) / dt` comes out as `7.000000000000001`, so
numpy's `ceil` gives an extra element.  The sample times hit `8`
at index 6 and end at about `9.3333` — beyond the claimed final
endpoint `8`. -/
theorem calculate_kinetic_data_series_counterexample :
    (calculate_kinetic_data ⟨0.95, 0.12, 10.0, 1e9, 0.1, 0.05, 0.2, 6⟩
        .compound1).map (List.map Sample.time) =
      .ok [0, 6004799503160661/4503599627370496,
        6004799503160661/2251799813685248, 4,
        6004799503160661/1125899906842624,
        3752999689475413/562949953421312, 8,
        2627099782632789/281474976710656] ∧
    (calculate_kinetic_data ⟨0.95, 0.12, 10.0, 1e9, 0.1, 0.05, 0.2, 6⟩
        .compound1).map List.length = .ok 8 ∧
    (⌊(8:ℚ) / ((8:ℚ) / 6)⌋).toNat + 1 = 7 ∧
    ((2627099782632789:ℚ)/281474976710656) ≠ 8 ∧
    (8:ℚ) < 2627099782632789/281474976710656 := by
  have hdt6 : fl64 ((8:ℚ)/6) = 6004799503160661/4503599627370496 := by
    have h := fl64_eq_down ((8:ℚ)/6) 0 6004799503160661 (by norm_num) (by norm_num)
      (by norm_num) (by norm_num)
    rw [h]
    norm_num
  have hs6 : fl64 ((8:ℚ) + 6004799503160661/4503599627370496) =
      5254199565265579/562949953421312 := by
    rw [show (8:ℚ) + 6004799503160661/4503599627370496 =
      42033596522124629/4503599627370496 by norm_num]
    have h := fl64_eq_up ((42033596522124629:ℚ)/4503599627370496) 3 5254199565265578
      (by norm_num) (by norm_num) (by norm_num) (by norm_num) (by norm_num)
    rw [h]
    norm_num
  have hq6 : fl64 ((5254199565265579:ℚ)/562949953421312 /
      (6004799503160661/4503599627370496)) = 7881299347898369/1125899906842624 := by
    rw [show (5254199565265579:ℚ)/562949953421312 /
      (6004799503160661/4503599627370496) =
      42033596522124632/6004799503160661 by norm_num]
    have h := fl64_eq_up ((42033596522124632:ℚ)/6004799503160661) 2 7881299347898368
      (by norm_num) (by norm_num) (by norm_num) (by norm_num) (by norm_num)
    rw [h]
    norm_num
  have hceil6 : ⌈(7881299347898369:ℚ)/1125899906842624⌉ = (8:ℤ) := by
    norm_num [Int.ceil_eq_iff]
  have ht1 : fl64 ((6004799503160661:ℚ)/4503599627370496) =
      6004799503160661/4503599627370496 := by
    have h := fl64_eq_down ((6004799503160661:ℚ)/4503599627370496) 0 6004799503160661
      (by norm_num) (by norm_num) (by norm_num) (by norm_num)
    rw [h]
    norm_num
  have ht2 : fl64 ((6004799503160661:ℚ)/2251799813685248) =
      6004799503160661/2251799813685248 := by
    have h := fl64_eq_down ((6004799503160661:ℚ)/2251799813685248) 1 6004799503160661
      (by norm_num) (by norm_num) (by norm_num) (by norm_num)
    rw [h]
    norm_num
  have ht3 : fl64 ((18014398509481983:ℚ)/4503599627370496) = 4 := by
    have h := fl64_eq_tie_odd ((18014398509481983:ℚ)/4503599627370496) 1
      9007199254740991 (by norm_num) (by norm_num) (by norm_num) (by norm_num)
    rw [h]
    norm_num
  have ht4 : fl64 ((6004799503160661:ℚ)/1125899906842624) =
      6004799503160661/1125899906842624 := by
    have h := fl64_eq_down ((6004799503160661:ℚ)/1125899906842624) 2 6004799503160661
      (by norm_num) (by norm_num) (by norm_num) (by norm_num)
    rw [h]
    norm_num
  have ht5 : fl64 ((30023997515803305:ℚ)/4503599627370496) =
      3752999689475413/562949953421312 := by
    have h := fl64_eq_down ((30023997515803305:ℚ)/4503599627370496) 2 7505999378950826
      (by norm_num) (by norm_num) (by norm_num) (by norm_num)
    rw [h]
    norm_num
  have ht6 : fl64 ((18014398509481983:ℚ)/2251799813685248) = 8 := by
    have h := fl64_eq_tie_odd ((18014398509481983:ℚ)/2251799813685248) 2
      9007199254740991 (by norm_num) (by norm_num) (by norm_num) (by norm_num)
    rw [h]
    norm_num
  have ht7 : fl64 ((42033596522124627:ℚ)/4503599627370496) =
      2627099782632789/281474976710656 := by
    have h := fl64_eq_down ((42033596522124627:ℚ)/4503599627370496) 3 5254199565265578
      (by norm_num) (by norm_num) (by norm_num) (by norm_num)
    rw [h]
    norm_num
  have ht0 : fl64 (0:ℚ) = 0 := by norm_num [fl64]
  have harange : npArange64
      (fl64 ((8:ℚ) + 6004799503160661/4503599627370496))
      (6004799503160661/4503599627370496) =
      [0, 6004799503160661/4503599627370496,
        6004799503160661/2251799813685248, 4,
        6004799503160661/1125899906842624,
        3752999689475413/562949953421312, 8,
        2627099782632789/281474976710656] := by
    rw [npArange64, hs6, hq6, hceil6]
    rw [show Int.toNat 8 = 8 from rfl,
      show List.range 8 = [0, 1, 2, 3, 4, 5, 6, 7] from rfl]
    simp only [List.map_cons, List.map_nil]
    rw [show ((0:ℕ):ℚ) * (6004799503160661/4503599627370496) = 0 by norm_num,
      show ((1:ℕ):ℚ) * (6004799503160661/4503599627370496) =
        6004799503160661/4503599627370496 by norm_num,
      show ((2:ℕ):ℚ) * (6004799503160661/4503599627370496) =
        6004799503160661/2251799813685248 by norm_num,
      show ((3:ℕ):ℚ) * (6004799503160661/4503599627370496) =
        18014398509481983/4503599627370496 by norm_num,
      show ((4:ℕ):ℚ) * (6004799503160661/4503599627370496) =
        6004799503160661/1125899906842624 by norm_num,
      show ((5:ℕ):ℚ) * (6004799503160661/4503599627370496) =
        30023997515803305/4503599627370496 by norm_num,
      show ((6:ℕ):ℚ) * (6004799503160661/4503599627370496) =
        18014398509481983/2251799813685248 by norm_num,
      show ((7:ℕ):ℚ) * (6004799503160661/4503599627370496) =
        42033596522124627/4503599627370496 by norm_num,
      ht0, ht1, ht2, ht3, ht4, ht5, ht6, ht7]
  have hpy : pyDiv 8
      (((⟨0.95, 0.12, 10.0, 1e9, 0.1, 0.05, 0.2, 6⟩ : Params).time_points : ℚ)) =
      .ok (6004799503160661/4503599627370496) := by
    rw [show (((⟨0.95, 0.12, 10.0, 1e9, 0.1, 0.05, 0.2, 6⟩ : Params).time_points : ℚ))
        = ((6:ℕ):ℚ) from rfl]
    rw [pyDiv, if_neg (by norm_num)]
    rw [show (8:ℚ) / ((6:ℕ):ℚ) = 8/6 by norm_num, hdt6]
  have hmain : calculate_kinetic_data ⟨0.95, 0.12, 10.0, 1e9, 0.1, 0.05, 0.2, 6⟩
      .compound1 =
      .ok ([0, 6004799503160661/4503599627370496,
        6004799503160661/2251799813685248, 4,
        6004799503160661/1125899906842624,
        3752999689475413/562949953421312, 8,
        2627099782632789/281474976710656].map
          (mkSample ⟨0.95, 0.12, 10.0, 1e9, 0.1, 0.05, 0.2, 6⟩ .compound1)) := by
    simp only [calculate_kinetic_data, hpy]
    rw [harange]
  refine ⟨?_, ?_, ?_, by norm_num, by norm_num⟩
  · rw [hmain]
    simp only [Except.map, List.map_map]
    rw [show Sample.time ∘
      mkSample ⟨0.95, 0.12, 10.0, 1e9, 0.1, 0.05, 0.2, 6⟩ .compound1 = id from
      funext fun t => rfl, List.map_id]
  · rw [hmain]
    simp [Except.map]
  · norm_num
    decide

/-- Claim C2, amended: at the default `time_points = 100` (the
instance the claim singles out) the float64 computation produces
exactly `101` samples; the float64 evaluation of `⌊8 / step⌋ + 1`
equals `101` as well; the sample times start at `0`, end exactly at
`8`, and are strictly ascending.  For general `time_points ≥ 1` the
count `⌊8 / step⌋ + 1` and the final endpoint `8` are not guaranteed:
float64 rounding can add an extra sample beyond time `8` (see the
counterexample at `time_points = 6`). -/
theorem calculate_kinetic_data_default_series :
    ∃ samples : List Sample,
      calculate_kinetic_data defaultParams .compound1 = .ok samples ∧
      samples.length = 101 ∧
      (⌊fl64 ((8:ℚ) / fl64 ((8:ℚ) / 100))⌋).toNat + 1 = 101 ∧
      (samples.map Sample.time).head? = some 0 ∧
      (samples.map Sample.time).getLast? = some 8 ∧
      List.Pairwise (· < ·) (samples.map Sample.time) := by
  have hdt : fl64 ((8:ℚ)/100) = 5764607523034235/72057594037927936 := by
    have h := fl64_eq_up ((8:ℚ)/100) (-4) 5764607523034234 (by norm_num) (by norm_num)
      (by norm_num) (by norm_num) (by norm_num)
    rw [h]
    norm_num
  have hs : fl64 ((8:ℚ) + 5764607523034235/72057594037927936) =
      4548635623644201/562949953421312 := by
    rw [show (8:ℚ) + 5764607523034235/72057594037927936 =
      582225359826457723/72057594037927936 by norm_num]
    have h := fl64_eq_up ((582225359826457723:ℚ)/72057594037927936) 3 4548635623644200
      (by norm_num) (by norm_num) (by norm_num) (by norm_num) (by norm_num)
    rw [h]
    norm_num
  have hq : fl64 ((4548635623644201:ℚ)/562949953421312 /
      (5764607523034235/72057594037927936)) = 101 := by
    rw [show (4548635623644201:ℚ)/562949953421312 /
      (5764607523034235/72057594037927936) =
      582225359826457728/5764607523034235 by norm_num]
    have h := fl64_eq_up ((582225359826457728:ℚ)/5764607523034235) 6 7107243161944063
      (by norm_num) (by norm_num) (by norm_num) (by norm_num) (by norm_num)
    rw [h]
    norm_num
  have hceil : ⌈(101:ℚ)⌉ = (101:ℤ) := by norm_num
  have hinv : fl64 ((8:ℚ) / (5764607523034235/72057594037927936)) = 100 := by
    rw [show (8:ℚ) / (5764607523034235/72057594037927936) =
      576460752303423488/5764607523034235 by norm_num]
    have h := fl64_eq_up ((576460752303423488:ℚ)/5764607523034235) 6 7036874417766399
      (by norm_num) (by norm_num) (by norm_num) (by norm_num) (by norm_num)
    rw [h]
    norm_num
  have hlast : fl64 (((100:ℕ):ℚ) * (5764607523034235/72057594037927936)) = 8 := by
    rw [show ((100:ℕ):ℚ) * (5764607523034235/72057594037927936) =
      144115188075855875/18014398509481984 by norm_num]
    have h := fl64_eq_down ((144115188075855875:ℚ)/18014398509481984) 3
      4503599627370496 (by norm_num) (by norm_num) (by norm_num) (by norm_num)
    rw [h]
    norm_num
  have hzero : fl64 (((0:ℕ):ℚ) * (5764607523034235/72057594037927936)) = 0 := by
    norm_num [fl64]
  have hpy : pyDiv 8 ((defaultParams.time_points : ℚ)) =
      .ok (5764607523034235/72057594037927936) := by
    rw [show ((defaultParams.time_points : ℚ)) = ((100:ℕ):ℚ) from rfl]
    rw [pyDiv, if_neg (by norm_num)]
    rw [show (8:ℚ) / ((100:ℕ):ℚ) = 8/100 by norm_num, hdt]
  have harange : npArange64
      (fl64 ((8:ℚ) + 5764607523034235/72057594037927936))
      (5764607523034235/72057594037927936) =
      (List.range 101).map
        (fun k : ℕ => fl64 ((k:ℚ) * (5764607523034235/72057594037927936))) := by
    rw [npArange64, hs, hq, hceil, show Int.toNat 101 = 101 from rfl]
  have hmain : calculate_kinetic_data defaultParams .compound1 =
      .ok (((List.range 101).map
        (fun k : ℕ => fl64 ((k:ℚ) * (5764607523034235/72057594037927936)))).map
          (mkSample defaultParams .compound1)) := by
    simp only [calculate_kinetic_data, hpy]
    rw [harange]
  have htimes : (((List.range 101).map
      (fun k : ℕ => fl64 ((k:ℚ) * (5764607523034235/72057594037927936)))).map
        (mkSample defaultParams .compound1)).map Sample.time =
      (List.range 101).map
        (fun k : ℕ => fl64 ((k:ℚ) * (5764607523034235/72057594037927936))) := by
    rw [List.map_map,
      show Sample.time ∘ mkSample defaultParams .compound1 = id from
        funext fun t => rfl, List.map_id]
  refine ⟨_, hmain, ?_, ?_, ?_, ?_, ?_⟩
  · simp [List.length_map, List.length_range]
  · rw [hdt, hinv]
    norm_num
    decide
  · rw [htimes, List.range_succ_eq_map]
    simp only [List.map_cons, List.head?_cons]
    rw [hzero]
  · rw [htimes, List.range_succ, List.map_append, List.map_singleton,
      List.getLast?_concat, hlast]
  · rw [htimes]
    rw [List.pairwise_iff_get]
    intro i j hij
    have hlen : ((List.range 101).map
        (fun k : ℕ => fl64 ((k:ℚ) * (5764607523034235/72057594037927936)))).length =
        101 := by
      simp [List.length_map, List.length_range]
    simp only [List.get_eq_getElem, List.getElem_map, List.getElem_range]
    apply fl64_dt100_mono
    · exact hij
    · have := j.isLt
      omega

end KineticModel
